import Mathlib

/-!
Shallow embedding of the image-quality assessment engine
(`utils/imageQuality.ts`: `checkImageQuality`, `calculateAverageBrightness`,
`calculateLaplacianVariance`) and theorems about its behaviour.

Modelling conventions:
* Values are carried over `ℚ`. The two double operations whose rounding is
  observable through the canvas dimensions — `500 / max(w, h)` and
  `naturalWidth * scale` — are modelled with explicit IEEE-754
  round-to-nearest (`roundDouble`); `naturalWidth`/`naturalHeight` are
  `unsigned long` values < 2^32, hence exactly representable, and `Math.min`
  / `Math.max` are exact.  The statistics sums of the brightness and blur
  checks are kept exact: their comparisons against the thresholds are only
  stated away from the representability-noise region.
* The browser's image decoding and `drawImage` resampling are oracles: a
  successfully decoded image carries its native dimensions and the pixel
  contents of the analysis raster as part of the input.
* `getImageData(0, 0, w, h)` throws `IndexSizeError` when `w = 0` or
  `h = 0` (zero-size analysis raster); the surrounding catch turns that into
  the accepting verdict, and `checkImageQuality` models this branch.
* Writing a double into a `Uint8ClampedArray` slot quantizes it (clamp to
  [0,255], round to nearest, ties to even), and assigning a double to the
  `unsigned long` canvas `width`/`height` truncates it toward zero; both
  conversions are part of the embedding because the source stores its
  grayscale buffer and canvas dimensions through them.
-/

/-- One pixel of an `ImageData` raster. The engine never reads the alpha
channel, so only the red, green and blue bytes (each 0..255) are carried. -/
structure Pixel where
  r : ℕ
  g : ℕ
  b : ℕ
deriving DecidableEq

/-- `MIN_RESOLUTION_WIDTH = 300`. -/
def MIN_RESOLUTION_WIDTH : ℕ := 300

/-- `MIN_RESOLUTION_HEIGHT = 300`. -/
def MIN_RESOLUTION_HEIGHT : ℕ := 300

/-- `DARKNESS_THRESHOLD = 70` (average pixel brightness, 0-255 scale). -/
def DARKNESS_THRESHOLD : ℚ := 70

/-- `BLUR_THRESHOLD = 100` (variance of the Laplacian; higher is sharper). -/
def BLUR_THRESHOLD : ℚ := 100

/-- The issue kinds `'low-resolution' | 'too-dark' | 'blurry'`. -/
inductive QualityIssue where
  | lowResolution : QualityIssue
  | tooDark : QualityIssue
  | blurry : QualityIssue
deriving DecidableEq

/-- The verdict `QualityResult { isOk: boolean; issues: QualityIssue[] }`. -/
structure QualityResult where
  isOk : Bool
  issues : List QualityIssue
deriving DecidableEq

/-- Storing a double into a `Uint8ClampedArray` entry (ECMAScript
`ToUint8Clamp`): clamp to [0, 255], then round to the nearest integer,
choosing the even integer on a tie. -/
def toUint8Clamp (q : ℚ) : ℤ :=
  let c : ℚ := max 0 (min q 255)
  if c - ⌊c⌋ < 1 / 2 then ⌊c⌋
  else if 1 / 2 < c - ⌊c⌋ then ⌊c⌋ + 1
  else if ⌊c⌋ % 2 = 0 then ⌊c⌋ else ⌊c⌋ + 1

/-- The exact value `0.299 * r + 0.587 * g + 0.114 * b` of a pixel. -/
def lumaWeighted (p : Pixel) : ℚ :=
  (299 * p.r + 587 * p.g + 114 * p.b : ℚ) / 1000

/-- The grayscale byte as the source materializes it:
`gray[i/4] = 0.299 * r + 0.587 * g + 0.114 * b` stored into a
`Uint8ClampedArray`, hence quantized by `toUint8Clamp`. -/
def grayByte (p : Pixel) : ℚ :=
  (toUint8Clamp (lumaWeighted p) : ℚ)

/-- Entry of the `laplacian` array at `(x, y)`: for interior pixels
(`1 ≤ x ≤ width - 2`, `1 ≤ y ≤ height - 2`, matching the loops
`for (y = 1; y < height - 1)` / `for (x = 1; x < width - 1)`) it is
`4*center - top - bottom - left - right`; all other entries of the
`Float32Array` are never written and stay `0`. -/
def laplacianEntry (gray : ℕ → ℕ → ℚ) (width height x y : ℕ) : ℚ :=
  if 1 ≤ x ∧ x + 1 < width ∧ 1 ≤ y ∧ y + 1 < height then
    4 * gray x y - gray x (y - 1) - gray x (y + 1) - gray (x - 1) y - gray (x + 1) y
  else 0

/-- The Laplacian-variance statistic for a given grayscale function:
`sum` accumulates the interior Laplacian values, `mean = sum / (width*height)`,
`varianceSum` ranges over the full `width*height` array (border entries
included as `0`), and the result is `varianceSum / (width*height)`. -/
def laplacianVarianceOf (gray : ℕ → ℕ → ℚ) (width height : ℕ) : ℚ :=
  let sum : ℚ := ∑ y ∈ Finset.range height, ∑ x ∈ Finset.range width,
    laplacianEntry gray width height x y
  let mean : ℚ := sum / (width * height)
  let varianceSum : ℚ := ∑ y ∈ Finset.range height, ∑ x ∈ Finset.range width,
    (laplacianEntry gray width height x y - mean) ^ 2
  varianceSum / (width * height)

/-- `calculateLaplacianVariance(context, width, height)`: grayscale conversion
through the `Uint8ClampedArray`, 3×3 Laplacian on the interior, variance over
the full grid. -/
def calculateLaplacianVariance (px : ℕ → ℕ → Pixel) (width height : ℕ) : ℚ :=
  laplacianVarianceOf (fun x y => grayByte (px x y)) width height

/-- The same statistic with the grayscale kept exact,
`gray(x,y) = 0.299R + 0.587G + 0.114B` with no byte quantization. Modelled
from the spec's wording of Step 4a, for comparison with
`calculateLaplacianVariance` (the source stores the grayscale values into a
`Uint8ClampedArray`, which rounds them to bytes). -/
def laplacianVarianceUnquantized (px : ℕ → ℕ → Pixel) (width height : ℕ) : ℚ :=
  laplacianVarianceOf (fun x y => lumaWeighted (px x y)) width height

/-- `calculateAverageBrightness(context, width, height)`: the sum over all
pixels of `(r + g + b) / 3`, divided by `numPixels = width * height`. -/
def calculateAverageBrightness (px : ℕ → ℕ → Pixel) (width height : ℕ) : ℚ :=
  (∑ y ∈ Finset.range height, ∑ x ∈ Finset.range width,
      (((px x y).r : ℚ) + ((px x y).g : ℚ) + ((px x y).b : ℚ)) / 3) /
    (width * height)

/-- Round to the nearest integer, ties to the even integer. -/
def roundTiesEven (q : ℚ) : ℤ :=
  if q - ⌊q⌋ < 1 / 2 then ⌊q⌋
  else if 1 / 2 < q - ⌊q⌋ then ⌊q⌋ + 1
  else if ⌊q⌋ % 2 = 0 then ⌊q⌋ else ⌊q⌋ + 1

/-- Rounding of a nonnegative real result of a JavaScript double operation to
the nearest IEEE-754 binary64 value: with `e = ⌊log2 q⌋` the significand
`q / 2^(e-52)` lies in `[2^52, 2^53)` and is rounded to the nearest integer,
ties to even. The magnitudes in play (between `500/2^32` and `2^32`) are far
from the subnormal and overflow ranges, which are therefore not modelled. -/
def roundDouble (q : ℚ) : ℚ :=
  if q ≤ 0 then 0
  else (roundTiesEven (q / 2 ^ (Int.log 2 q - 52)) : ℚ) * 2 ^ (Int.log 2 q - 52)

/-- `scale = Math.min(1, 500 / Math.max(naturalWidth, naturalHeight))`:
`Math.max` of two exactly-representable integers is exact, the division is
one double operation (rounded), and `Math.min` is exact. -/
def scale (naturalWidth naturalHeight : ℕ) : ℚ :=
  min 1 (roundDouble (500 / (max naturalWidth naturalHeight : ℚ)))

/-- `canvas.width = img.naturalWidth * scale`: the double product is rounded
(`roundDouble`), then assigning it to the `unsigned long` canvas attribute
truncates it toward zero (WebIDL conversion); the product is nonnegative,
hence the floor. -/
def analysisWidth (naturalWidth naturalHeight : ℕ) : ℕ :=
  (⌊roundDouble ((naturalWidth : ℚ) * scale naturalWidth naturalHeight)⌋).toNat

/-- `canvas.height = img.naturalHeight * scale`, rounded and truncated as in
`analysisWidth`. -/
def analysisHeight (naturalWidth naturalHeight : ℕ) : ℕ :=
  (⌊roundDouble ((naturalHeight : ℚ) * scale naturalWidth naturalHeight)⌋).toNat

/-- A successfully decoded image: its native dimensions, whether
`canvas.getContext('2d')` returned a context, and the analysis-raster pixels
that `drawImage` followed by `getImageData` produce. -/
structure DecodedImage where
  naturalWidth : ℕ
  naturalHeight : ℕ
  ctxOk : Bool
  px : ℕ → ℕ → Pixel

/-- Outcome of `loadImage(base64)` and the surrounding `try`: either some step
threw (rejected promise or exception, handled by the `catch` block), or the
image decoded. -/
inductive LoadOutcome where
  | failure : LoadOutcome
  | success : DecodedImage → LoadOutcome

/-- `checkImageQuality`: resolution check on native dimensions, then (if a 2d
context is obtained) brightness and blur checks on the analysis raster; the
`catch` block maps any failure — a load failure, or the `IndexSizeError`
that `getImageData` throws when a canvas dimension is 0 — to
`{ isOk: true, issues: [] }`. -/
def checkImageQuality (o : LoadOutcome) : QualityResult :=
  match o with
  | .failure => ⟨true, []⟩
  | .success img =>
    let issuesRes : List QualityIssue :=
      if img.naturalWidth < MIN_RESOLUTION_WIDTH ∨
          img.naturalHeight < MIN_RESOLUTION_HEIGHT then
        [.lowResolution]
      else []
    if img.ctxOk then
      let w := analysisWidth img.naturalWidth img.naturalHeight
      let h := analysisHeight img.naturalWidth img.naturalHeight
      if w = 0 ∨ h = 0 then
        -- `getImageData(0, 0, w, h)` with a zero dimension throws
        -- `IndexSizeError` inside `calculateAverageBrightness`; the
        -- surrounding catch discards the issues found so far.
        ⟨true, []⟩
      else
      let issuesDark : List QualityIssue :=
        if calculateAverageBrightness img.px w h < DARKNESS_THRESHOLD then
          [.tooDark]
        else []
      let issuesBlur : List QualityIssue :=
        if calculateLaplacianVariance img.px w h < BLUR_THRESHOLD then
          [.blurry]
        else []
      let issues := issuesRes ++ issuesDark ++ issuesBlur
      ⟨issues.isEmpty, issues⟩
    else
      ⟨issuesRes.isEmpty, issuesRes⟩

/-- The all-black raster. -/
def blackPx : ℕ → ℕ → Pixel := fun _ _ => ⟨0, 0, 0⟩

/-- A 3×3 raster that is black except for a dim red pixel at the center. -/
def centerDotPx : ℕ → ℕ → Pixel :=
  fun x y => if x = 1 ∧ y = 1 then ⟨26, 0, 0⟩ else ⟨0, 0, 0⟩

/-- A decodable 3×3 image with the `centerDotPx` analysis raster. -/
def imgCenterDot : DecodedImage := ⟨3, 3, true, centerDotPx⟩

/-- A decodable all-black 3×3 image with a 2d context. -/
def img3 : DecodedImage := ⟨3, 3, true, blackPx⟩

/-- A decodable all-black 2×2 image with a 2d context. -/
def img2 : DecodedImage := ⟨2, 2, true, blackPx⟩

/-- A decodable all-black 1×512 image with a 2d context: its analysis canvas
gets width `trunc(1 * fl(500/512)) = trunc(125/128) = 0`. -/
def imgTall : DecodedImage := ⟨1, 512, true, blackPx⟩
/-- A 400×400 decodable image for which no 2d context is available. -/
def imgLargeNoCtx : DecodedImage := ⟨400, 400, false, blackPx⟩
/-- A 100×100 decodable image for which no 2d context is available. -/
def imgSmallNoCtx : DecodedImage := ⟨100, 100, false, blackPx⟩

/-- Membership in a conditional singleton issue list. -/
lemma mem_ite_singleton {a b : QualityIssue} {P : Prop} [Decidable P] :
    a ∈ (if P then [b] else []) ↔ P ∧ a = b := by
  split <;> simp_all

/-- A conditional singleton is a sublist of the corresponding singleton. -/
lemma ite_singleton_sublist {b : QualityIssue} {P : Prop} [Decidable P] :
    (if P then [b] else ([] : List QualityIssue)).Sublist [b] := by
  split <;> simp

/-- C1: for every input, the `QualityVerdict` returned by `checkImageQuality`
satisfies `isOk = true` if and only if its `issues` list is empty. -/
theorem checkImageQuality_isOk_iff_issues_nil (o : LoadOutcome) :
    (checkImageQuality o).isOk = true ↔ (checkImageQuality o).issues = [] := by
  rcases o with _ | img
  · simp [checkImageQuality]
  · unfold checkImageQuality
    by_cases hc : img.ctxOk
    · by_cases hz : analysisWidth img.naturalWidth img.naturalHeight = 0 ∨
          analysisHeight img.naturalWidth img.naturalHeight = 0 <;>
        simp [hc, hz, List.isEmpty_iff]
    · simp [hc, List.isEmpty_iff]

/-- C2: for every malformed or undecodable input (the load-failure outcome),
`checkImageQuality` returns the accepting verdict `{ isOk: true, issues: [] }`;
in the embedding it is a total function, so it never propagates an exception. -/
theorem checkImageQuality_failure_accepts :
    checkImageQuality .failure = ⟨true, []⟩ := rfl

/-- C9: for every input, the returned `issues` list is an ordered subset of
`[lowResolution, tooDark, blurry]`: each issue occurs at most once and issues
appear in that fixed order. -/
theorem checkImageQuality_issues_ordered (o : LoadOutcome) :
    (checkImageQuality o).issues.Sublist
        [QualityIssue.lowResolution, QualityIssue.tooDark, QualityIssue.blurry] ∧
      (checkImageQuality o).issues.Nodup := by
  have hmaster :
      ([QualityIssue.lowResolution, QualityIssue.tooDark,
        QualityIssue.blurry]).Nodup := by decide
  suffices hs : (checkImageQuality o).issues.Sublist
      [QualityIssue.lowResolution, QualityIssue.tooDark, QualityIssue.blurry] from
    ⟨hs, hs.nodup hmaster⟩
  rcases o with _ | img
  · simp [checkImageQuality]
  · unfold checkImageQuality
    by_cases hc : img.ctxOk
    · simp only [hc, if_true]
      by_cases hz : analysisWidth img.naturalWidth img.naturalHeight = 0 ∨
          analysisHeight img.naturalWidth img.naturalHeight = 0
      · rw [if_pos hz]
        simp
      · rw [if_neg hz]
        exact (ite_singleton_sublist.append ite_singleton_sublist).append
          ite_singleton_sublist
    · simp only [hc, if_false, Bool.false_eq_true]
      exact ite_singleton_sublist.trans
        (List.sublist_append_left [QualityIssue.lowResolution]
          [QualityIssue.tooDark, QualityIssue.blurry])

/-- C7: for every decodable image for which the 2d context cannot be obtained,
`checkImageQuality` returns exactly the issues found before that point: only
the resolution check applies, `tooDark` and `blurry` are never reported. -/
theorem checkImageQuality_noCtx_resolution_only (img : DecodedImage)
    (hc : img.ctxOk = false) :
    ((img.naturalWidth < 300 ∨ img.naturalHeight < 300) →
        checkImageQuality (.success img) = ⟨false, [QualityIssue.lowResolution]⟩) ∧
      (¬(img.naturalWidth < 300 ∨ img.naturalHeight < 300) →
        checkImageQuality (.success img) = ⟨true, []⟩) ∧
      QualityIssue.tooDark ∉ (checkImageQuality (.success img)).issues ∧
      QualityIssue.blurry ∉ (checkImageQuality (.success img)).issues := by
  unfold checkImageQuality MIN_RESOLUTION_WIDTH MIN_RESOLUTION_HEIGHT
  by_cases hr : img.naturalWidth < 300 ∨ img.naturalHeight < 300 <;>
    simp [hc, hr]


/-- C7 witness: on the concrete 100×100 no-context image the verdict is
`⟨false, [lowResolution]⟩`. -/
theorem checkImageQuality_noCtx_resolution_only_witness :
    checkImageQuality (.success imgSmallNoCtx) =
      ⟨false, [QualityIssue.lowResolution]⟩ :=
  (checkImageQuality_noCtx_resolution_only imgSmallNoCtx rfl).1
    (Or.inl (by decide))

/-- C8 counterexample: on a decodable 100×100 image whose surface creation
fails (no 2d context), `checkImageQuality` does not return the accepting
verdict: it returns `⟨false, [lowResolution]⟩`. -/
theorem checkImageQuality_surface_failure_not_accepting :
    checkImageQuality (.success imgSmallNoCtx) ≠
        (⟨true, []⟩ : QualityResult) ∧
      checkImageQuality (.success imgSmallNoCtx) =
        ⟨false, [QualityIssue.lowResolution]⟩ := by
  constructor <;> decide


/-- C8 (amended): load failure (malformed bytes, unsupported format) is
recovered into the accepting verdict; surface-creation failure is not — there
the verdict reflects the resolution check already performed: accepting exactly
when the native dimensions meet the minimum, and `⟨false, [lowResolution]⟩`
otherwise. -/
theorem checkImageQuality_decode_failure_policy (img : DecodedImage)
    (hc : img.ctxOk = false) :
    checkImageQuality .failure = ⟨true, []⟩ ∧
      ((300 ≤ img.naturalWidth ∧ 300 ≤ img.naturalHeight) →
        checkImageQuality (.success img) = ⟨true, []⟩) ∧
      ((img.naturalWidth < 300 ∨ img.naturalHeight < 300) →
        checkImageQuality (.success img) = ⟨false, [QualityIssue.lowResolution]⟩) := by
  refine ⟨rfl, ?_, ?_⟩ <;> intro hr <;>
    unfold checkImageQuality MIN_RESOLUTION_WIDTH MIN_RESOLUTION_HEIGHT <;>
      [skip; skip] <;> first
  | (have hr' : ¬(img.naturalWidth < 300 ∨ img.naturalHeight < 300) := by omega
     simp [hc, hr'])
  | simp [hc, hr]

/-- C8 witness: on the concrete 400×400 no-context image the verdict is the
accepting one. -/
theorem checkImageQuality_decode_failure_policy_witness :
    checkImageQuality (.success imgLargeNoCtx) = ⟨true, []⟩ :=
  (checkImageQuality_decode_failure_policy imgLargeNoCtx rfl).2.1
    ⟨by decide, by decide⟩

/-- `roundTiesEven` of an integer is that integer. -/
lemma roundTiesEven_intCast (n : ℤ) : roundTiesEven (n : ℚ) = n := by
  unfold roundTiesEven
  rw [Int.floor_intCast, sub_self]
  norm_num

/-- `roundTiesEven` rounds down when the fractional part is below one half. -/
lemma roundTiesEven_eq_of_lt_half (q : ℚ) (n : ℤ) (h1 : (n : ℚ) ≤ q)
    (h2 : q < (n : ℚ) + 1 / 2) : roundTiesEven q = n := by
  have hfl : ⌊q⌋ = n := Int.floor_eq_iff.mpr ⟨h1, by linarith⟩
  unfold roundTiesEven
  rw [hfl, if_pos (by linarith : q - (n : ℚ) < 1 / 2)]

/-- `roundTiesEven` never rounds below the floor. -/
lemma floor_le_roundTiesEven (q : ℚ) : ⌊q⌋ ≤ roundTiesEven q := by
  unfold roundTiesEven
  split
  · exact le_refl _
  · split
    · omega
    · split <;> omega

/-- Uniqueness of the binade: if `2^e ≤ q < 2^(e+1)` then `Int.log 2 q = e`. -/
lemma int_log_eq_of_bounds (q : ℚ) (e : ℤ) (h1 : (2 : ℚ) ^ e ≤ q)
    (h2 : q < (2 : ℚ) ^ (e + 1)) : Int.log 2 q = e := by
  have hq : 0 < q := lt_of_lt_of_le (zpow_pos (by norm_num) e) h1
  have hle : (2 : ℚ) ^ Int.log 2 q ≤ q := Int.zpow_log_le_self (by norm_num) hq
  have hlt : q < (2 : ℚ) ^ (Int.log 2 q + 1) := Int.lt_zpow_succ_log_self (by norm_num) q
  have b1 : Int.log 2 q < e + 1 :=
    (zpow_lt_zpow_iff_right₀ (by norm_num : (1 : ℚ) < 2)).mp (lt_of_le_of_lt hle h2)
  have b2 : e < Int.log 2 q + 1 :=
    (zpow_lt_zpow_iff_right₀ (by norm_num : (1 : ℚ) < 2)).mp (lt_of_le_of_lt h1 hlt)
  omega

/-- Evaluate `roundDouble` at a known binade. -/
lemma roundDouble_eval (q : ℚ) (e : ℤ) (h1 : (2 : ℚ) ^ e ≤ q)
    (h2 : q < (2 : ℚ) ^ (e + 1)) :
    roundDouble q = (roundTiesEven (q / 2 ^ (e - 52)) : ℚ) * 2 ^ (e - 52) := by
  have hq : 0 < q := lt_of_lt_of_le (zpow_pos (by norm_num) e) h1
  unfold roundDouble
  rw [if_neg (not_le.mpr hq), int_log_eq_of_bounds q e h1 h2]

/-- Positive integers below `2^53` are exactly representable in binary64:
`roundDouble` returns them unchanged. -/
lemma roundDouble_natCast (n : ℕ) (h0 : 0 < n) (h53 : n < 2 ^ 53) :
    roundDouble (n : ℚ) = n := by
  have hq : (0 : ℚ) < n := by exact_mod_cast h0
  have h1q : (1 : ℚ) ≤ n := by exact_mod_cast h0
  have hle : (2 : ℚ) ^ Int.log 2 (n : ℚ) ≤ n := Int.zpow_log_le_self (by norm_num) hq
  have hlt : (n : ℚ) < (2 : ℚ) ^ (Int.log 2 (n : ℚ) + 1) :=
    Int.lt_zpow_succ_log_self (by norm_num) _
  set e : ℤ := Int.log 2 (n : ℚ) with he
  have he0 : 0 ≤ e := by
    have h2 := Int.log_mono_right (b := 2) one_pos h1q
    simpa [he] using h2
  have he52 : e ≤ 52 := by
    by_contra hcon
    push_neg at hcon
    have h2e : (2 : ℚ) ^ (53 : ℤ) ≤ (2 : ℚ) ^ e := zpow_le_zpow_right₀ (by norm_num) (by omega)
    have h2n : ((2 ^ 53 : ℕ) : ℚ) ≤ (n : ℚ) := by
      refine le_trans (le_of_eq ?_) (le_trans h2e hle)
      norm_num
    have : (2 ^ 53 : ℕ) ≤ n := by exact_mod_cast h2n
    omega
  set k : ℕ := (52 - e).toNat with hk
  have hek : e - 52 = -(k : ℤ) := by omega
  have hdiv : (n : ℚ) / 2 ^ (e - 52) = ((n * 2 ^ k : ℕ) : ℚ) := by
    rw [hek, zpow_neg, div_inv_eq_mul, zpow_natCast]
    push_cast
    ring
  rw [roundDouble_eval (n : ℚ) e hle hlt, hdiv,
    roundTiesEven_eq_of_lt_half _ ((n * 2 ^ k : ℕ) : ℤ)
      (by push_cast; exact le_refl _) (by push_cast; linarith)]
  rw [hek, zpow_neg, zpow_natCast]
  push_cast
  field_simp

/-- `roundDouble` does not round a value that is at least 1 below 1. -/
lemma one_le_roundDouble (q : ℚ) (hq1 : 1 ≤ q) : 1 ≤ roundDouble q := by
  have hq : 0 < q := lt_of_lt_of_le one_pos hq1
  have hle : (2 : ℚ) ^ Int.log 2 q ≤ q := Int.zpow_log_le_self (by norm_num) hq
  have hlt : q < (2 : ℚ) ^ (Int.log 2 q + 1) := Int.lt_zpow_succ_log_self (by norm_num) q
  set e : ℤ := Int.log 2 q with he
  have he0 : 0 ≤ e := by
    have h2 := Int.log_mono_right (b := 2) one_pos hq1
    simpa [he] using h2
  rw [roundDouble_eval q e hle hlt]
  have hp : (0 : ℚ) < 2 ^ (e - 52) := zpow_pos (by norm_num) _
  have hpow : ((2 ^ 52 : ℤ) : ℚ) * 2 ^ (e - 52) = 2 ^ e := by
    have hlit : ((2 ^ 52 : ℤ) : ℚ) = 2 ^ (52 : ℤ) := by norm_num
    rw [hlit, ← zpow_add₀ (by norm_num : (2 : ℚ) ≠ 0)]
    congr 1
    ring
  have hx : ((2 ^ 52 : ℤ) : ℚ) ≤ q / 2 ^ (e - 52) := by
    rw [le_div_iff₀ hp, hpow]
    exact hle
  have hr : (2 ^ 52 : ℤ) ≤ roundTiesEven (q / 2 ^ (e - 52)) :=
    le_trans (Int.le_floor.mpr hx) (floor_le_roundTiesEven _)
  have hstep : ((2 ^ 52 : ℤ) : ℚ) * 2 ^ (e - 52) ≤
      (roundTiesEven (q / 2 ^ (e - 52)) : ℚ) * 2 ^ (e - 52) := by
    apply mul_le_mul_of_nonneg_right _ (le_of_lt hp)
    exact_mod_cast hr
  refine le_trans ?_ hstep
  rw [hpow]
  calc (1 : ℚ) = 2 ^ (0 : ℤ) := by norm_num
    _ ≤ 2 ^ e := zpow_le_zpow_right₀ (by norm_num) he0

/-- When one native dimension is positive and the long edge is at most 500,
the computed scale factor is exactly 1 (the rounded quotient is at least 1,
so `Math.min` picks 1). -/
lemma scale_eq_one (w h : ℕ) (h0 : 0 < max w h) (hle : max w h ≤ 500) :
    scale w h = 1 := by
  have hm : (0 : ℚ) < (max w h : ℚ) := by exact_mod_cast h0
  have h1 : (1 : ℚ) ≤ 500 / (max w h : ℚ) := by
    rw [le_div_iff₀ hm]
    have h2 : (max w h : ℚ) ≤ 500 := by exact_mod_cast hle
    linarith
  unfold scale
  exact min_eq_left (one_le_roundDouble _ h1)

/-- Images whose long edge is at most 500 keep their native width. -/
lemma analysisWidth_eq_self (w h : ℕ) (h0 : 0 < w) (hle : max w h ≤ 500) :
    analysisWidth w h = w := by
  have hmax : 0 < max w h := lt_of_lt_of_le h0 (le_max_left w h)
  have h500 : w ≤ 500 := le_trans (le_max_left w h) hle
  unfold analysisWidth
  rw [scale_eq_one w h hmax hle, mul_one,
    roundDouble_natCast w h0 (by omega), Int.floor_natCast]
  simp

/-- Images whose long edge is at most 500 keep their native height. -/
lemma analysisHeight_eq_self (w h : ℕ) (h0 : 0 < h) (hle : max w h ≤ 500) :
    analysisHeight w h = h := by
  have hmax : 0 < max w h := lt_of_lt_of_le h0 (le_max_right w h)
  have h500 : h ≤ 500 := le_trans (le_max_right w h) hle
  unfold analysisHeight
  rw [scale_eq_one w h hmax hle, mul_one,
    roundDouble_natCast h h0 (by omega), Int.floor_natCast]
  simp

/-- `1/2` is exactly representable: `roundDouble` fixes it. -/
lemma roundDouble_half : roundDouble (1 / 2 : ℚ) = 1 / 2 := by
  rw [roundDouble_eval (1 / 2 : ℚ) (-1) (by norm_num) (by norm_num),
    roundTiesEven_eq_of_lt_half _ 4503599627370496 (by norm_num) (by norm_num)]
  norm_num

/-- `375.5` is exactly representable: `roundDouble` fixes it. -/
lemma roundDouble_751_half : roundDouble (751 / 2 : ℚ) = 751 / 2 := by
  rw [roundDouble_eval (751 / 2 : ℚ) 8 (by norm_num) (by norm_num),
    roundTiesEven_eq_of_lt_half _ 6605865859678208 (by norm_num) (by norm_num)]
  norm_num

/-- `125/128` (the exact quotient `500/512`) is exactly representable. -/
lemma roundDouble_125_128 : roundDouble (125 / 128 : ℚ) = 125 / 128 := by
  rw [roundDouble_eval (125 / 128 : ℚ) (-1) (by norm_num) (by norm_num),
    roundTiesEven_eq_of_lt_half _ 8796093022208000 (by norm_num) (by norm_num)]
  norm_num

/-- `scale 1000 751 = 1/2`: every double operation is exact here. -/
lemma scale_1000_751 : scale 1000 751 = 1 / 2 := by
  unfold scale
  push_cast
  rw [max_eq_left (by norm_num : (751 : ℚ) ≤ 1000),
    show (500 : ℚ) / 1000 = 1 / 2 by norm_num, roundDouble_half]
  norm_num

/-- `scale 1 512 = 125/128`: the quotient `500/512` is exactly representable. -/
lemma scale_one_512 : scale 1 512 = 125 / 128 := by
  unfold scale
  push_cast
  rw [max_eq_right (by norm_num : (1 : ℚ) ≤ 512),
    show (500 : ℚ) / 512 = 125 / 128 by norm_num, roundDouble_125_128]
  norm_num

/-- A 1×512 image gets analysis-canvas width `trunc(125/128) = 0`. -/
lemma analysisWidth_one_512 : analysisWidth 1 512 = 0 := by
  unfold analysisWidth
  rw [scale_one_512]
  push_cast
  rw [one_mul, roundDouble_125_128]
  norm_num

/-- The binary64 quotient `fl(500/531) = 8481355230452911/2^53` (the exact
quotient is not representable; it rounds down, with fractional significand
part `259/531 < 1/2`). -/
lemma roundDouble_500_531 :
    roundDouble (500 / 531 : ℚ) = 8481355230452911 / 9007199254740992 := by
  rw [roundDouble_eval (500 / 531 : ℚ) (-1) (by norm_num) (by norm_num),
    roundTiesEven_eq_of_lt_half _ 8481355230452911 (by norm_num) (by norm_num)]
  norm_num

/-- `scale 531 531` is the rounded quotient `fl(500/531)`, which is below 1. -/
lemma scale_531_531 : scale 531 531 = 8481355230452911 / 9007199254740992 := by
  unfold scale
  push_cast
  rw [max_self, show (500 : ℚ) / 531 = 500 / 531 from rfl, roundDouble_500_531]
  norm_num

/-- Fidelity of the double model at an ordinary size: a 531×531 image is
analyzed at 499×499, because `531 * fl(500/531)` evaluates in binary64 to
`4503599627370495741/2^53 = 499.99999999999994…`, whose second rounding
(significand fraction `253/512 < 1/2`) stays below 500 and truncates to 499 —
not the 500 the exact-rational product `531 * (500/531)` would give. -/
lemma analysisWidth_531_531 : analysisWidth 531 531 = 499 := by
  unfold analysisWidth
  rw [scale_531_531]
  push_cast
  rw [show (531 : ℚ) * (8481355230452911 / 9007199254740992) =
      4503599627370495741 / 9007199254740992 by norm_num,
    roundDouble_eval (4503599627370495741 / 9007199254740992 : ℚ) 8
      (by norm_num) (by norm_num),
    roundTiesEven_eq_of_lt_half _ 8796093022207999 (by norm_num) (by norm_num)]
  norm_num
  decide

/-- Membership in the issue list on the context-available path with a
nonempty analysis raster: an issue is present exactly when its check fired
and it is the issue that check pushes. -/
lemma mem_checkImageQuality_ctx (img : DecodedImage) (hc : img.ctxOk = true)
    (hw0 : analysisWidth img.naturalWidth img.naturalHeight ≠ 0)
    (hh0 : analysisHeight img.naturalWidth img.naturalHeight ≠ 0)
    (a : QualityIssue) :
    a ∈ (checkImageQuality (.success img)).issues ↔
      ((img.naturalWidth < 300 ∨ img.naturalHeight < 300) ∧
          a = QualityIssue.lowResolution) ∨
        (calculateAverageBrightness img.px
            (analysisWidth img.naturalWidth img.naturalHeight)
            (analysisHeight img.naturalWidth img.naturalHeight) < 70 ∧
          a = QualityIssue.tooDark) ∨
        (calculateLaplacianVariance img.px
            (analysisWidth img.naturalWidth img.naturalHeight)
            (analysisHeight img.naturalWidth img.naturalHeight) < 100 ∧
          a = QualityIssue.blurry) := by
  unfold checkImageQuality MIN_RESOLUTION_WIDTH MIN_RESOLUTION_HEIGHT
    DARKNESS_THRESHOLD BLUR_THRESHOLD
  simp [hc, hw0, hh0, mem_ite_singleton, List.mem_append, or_assoc]

/-- C3 counterexample: the decodable 1×512 image has native width 1 < 300,
but its analysis canvas gets width 0, `getImageData` throws `IndexSizeError`,
and the catch returns the accepting verdict — `lowResolution` is dropped. -/
theorem checkImageQuality_zero_raster_drops_lowResolution :
    imgTall.naturalWidth < 300 ∧
      checkImageQuality (.success imgTall) = ⟨true, []⟩ ∧
      QualityIssue.lowResolution ∉ (checkImageQuality (.success imgTall)).issues := by
  have hres : checkImageQuality (.success imgTall) = ⟨true, []⟩ := by
    unfold checkImageQuality
    simp [imgTall, analysisWidth_one_512]
  exact ⟨by decide, hres, by rw [hres]; simp⟩

/-- C3 (amended): for every decodable image for which either no 2d context is
obtained or the computed analysis canvas is nonempty (both dimensions
nonzero), `issues` contains `lowResolution` if and only if the native width
is < 300 or the native height is < 300, regardless of pixel content; the
check reads `naturalWidth`/`naturalHeight`, not the analysis-raster
dimensions. (When a context is obtained and a canvas dimension is 0,
`getImageData` throws and the catch returns the accepting verdict instead.) -/
theorem checkImageQuality_lowResolution_iff (img : DecodedImage)
    (hok : img.ctxOk = false ∨
      (analysisWidth img.naturalWidth img.naturalHeight ≠ 0 ∧
        analysisHeight img.naturalWidth img.naturalHeight ≠ 0)) :
    QualityIssue.lowResolution ∈ (checkImageQuality (.success img)).issues ↔
      img.naturalWidth < 300 ∨ img.naturalHeight < 300 := by
  by_cases hc : img.ctxOk
  · have hwh : analysisWidth img.naturalWidth img.naturalHeight ≠ 0 ∧
        analysisHeight img.naturalWidth img.naturalHeight ≠ 0 := by
      rcases hok with hfalse | hok
      · rw [hc] at hfalse
        exact absurd hfalse (by simp)
      · exact hok
    rw [mem_checkImageQuality_ctx img hc hwh.1 hwh.2]
    simp
  · have hc' : img.ctxOk = false := by
      cases hcv : img.ctxOk
      · rfl
      · exact absurd hcv hc
    unfold checkImageQuality MIN_RESOLUTION_WIDTH MIN_RESOLUTION_HEIGHT
    by_cases hr : img.naturalWidth < 300 ∨ img.naturalHeight < 300 <;>
      simp [hc', hr, mem_ite_singleton]

/-- C3 witness: on the all-black 3×3 image (context available, analysis
raster 3×3) the equivalence is exercised: `lowResolution` is reported and
indeed 3 < 300. -/
theorem checkImageQuality_lowResolution_iff_witness :
    QualityIssue.lowResolution ∈ (checkImageQuality (.success img3)).issues ↔
      img3.naturalWidth < 300 ∨ img3.naturalHeight < 300 :=
  checkImageQuality_lowResolution_iff img3
    (Or.inr ⟨by
        simp only [img3]
        rw [analysisWidth_eq_self 3 3 (by decide) (by decide)]
        decide, by
        simp only [img3]
        rw [analysisHeight_eq_self 3 3 (by decide) (by decide)]
        decide⟩)

/-- C4: for every decodable image with a context and a nonempty analysis
raster, `avgBrightness` is the mean over all raster pixels of `(R+G+B)/3`,
and `issues` contains `tooDark` if and only if `avgBrightness < 70`. -/
theorem checkImageQuality_tooDark_iff (img : DecodedImage)
    (hc : img.ctxOk = true)
    (hw : 0 < analysisWidth img.naturalWidth img.naturalHeight)
    (hh : 0 < analysisHeight img.naturalWidth img.naturalHeight) :
    calculateAverageBrightness img.px
        (analysisWidth img.naturalWidth img.naturalHeight)
        (analysisHeight img.naturalWidth img.naturalHeight) =
      (∑ y ∈ Finset.range (analysisHeight img.naturalWidth img.naturalHeight),
          ∑ x ∈ Finset.range (analysisWidth img.naturalWidth img.naturalHeight),
            (((img.px x y).r : ℚ) + ((img.px x y).g : ℚ) + ((img.px x y).b : ℚ)) / 3) /
        ((analysisWidth img.naturalWidth img.naturalHeight : ℚ) *
          (analysisHeight img.naturalWidth img.naturalHeight : ℚ)) ∧
      (QualityIssue.tooDark ∈ (checkImageQuality (.success img)).issues ↔
        calculateAverageBrightness img.px
          (analysisWidth img.naturalWidth img.naturalHeight)
          (analysisHeight img.naturalWidth img.naturalHeight) < 70) := by
  refine ⟨rfl, ?_⟩
  simpa using mem_checkImageQuality_ctx img hc hw.ne' hh.ne' QualityIssue.tooDark

/-- C4 witness: the all-black 3×3 image has average brightness 0 < 70 and is
reported `tooDark`. -/
theorem checkImageQuality_tooDark_iff_witness :
    0 < analysisWidth 3 3 ∧ 0 < analysisHeight 3 3 ∧
      (QualityIssue.tooDark ∈ (checkImageQuality (.success img3)).issues ↔
        calculateAverageBrightness img3.px (analysisWidth 3 3) (analysisHeight 3 3) < 70) := by
  have hw : analysisWidth 3 3 = 3 := analysisWidth_eq_self 3 3 (by decide) (by decide)
  have hh : analysisHeight 3 3 = 3 := analysisHeight_eq_self 3 3 (by decide) (by decide)
  refine ⟨by simp [hw], by simp [hh], ?_⟩
  exact (checkImageQuality_tooDark_iff img3 rfl
    (by simp only [img3, hw]; decide) (by simp only [img3, hh]; decide)).2

/-- C5 (amended): for every decodable image with a context and a nonempty
analysis raster, `issues` contains `blurry` if and only if
`calculateLaplacianVariance` — the Laplacian variance whose grayscale values
are the `Uint8ClampedArray`-quantized bytes of `0.299R + 0.587G + 0.114B` —
is < 100, with the interior Laplacian, zero borders, and both statistics
divided by the full `width*height` pixel count. -/
theorem checkImageQuality_blurry_iff (img : DecodedImage)
    (hc : img.ctxOk = true)
    (hw : 0 < analysisWidth img.naturalWidth img.naturalHeight)
    (hh : 0 < analysisHeight img.naturalWidth img.naturalHeight) :
    QualityIssue.blurry ∈ (checkImageQuality (.success img)).issues ↔
      calculateLaplacianVariance img.px
        (analysisWidth img.naturalWidth img.naturalHeight)
        (analysisHeight img.naturalWidth img.naturalHeight) < 100 := by
  simpa using mem_checkImageQuality_ctx img hc hw.ne' hh.ne' QualityIssue.blurry

/-- C5 witness: the all-black 3×3 image has Laplacian variance 0 < 100 and is
reported `blurry`. -/
theorem checkImageQuality_blurry_iff_witness :
    0 < analysisWidth 3 3 ∧ 0 < analysisHeight 3 3 ∧
      (QualityIssue.blurry ∈ (checkImageQuality (.success img3)).issues ↔
        calculateLaplacianVariance img3.px (analysisWidth 3 3) (analysisHeight 3 3) < 100) := by
  have hw : analysisWidth 3 3 = 3 := analysisWidth_eq_self 3 3 (by decide) (by decide)
  have hh : analysisHeight 3 3 = 3 := analysisHeight_eq_self 3 3 (by decide) (by decide)
  refine ⟨by simp [hw], by simp [hh], ?_⟩
  exact checkImageQuality_blurry_iff img3 rfl
    (by simp only [img3, hw]; decide) (by simp only [img3, hh]; decide)

/-- Evaluation: the grayscale byte of a black pixel is 0. -/
lemma grayByte_black : grayByte ⟨0, 0, 0⟩ = 0 := by
  norm_num [grayByte, toUint8Clamp, lumaWeighted]

/-- Evaluation: `0.299*26 = 7.774` is stored as the byte 8. -/
lemma grayByte_dimRed : grayByte ⟨26, 0, 0⟩ = 8 := by
  norm_num [grayByte, toUint8Clamp, lumaWeighted]

/-- Evaluation: the exact luma of the dim red pixel is `7.774`. -/
lemma lumaWeighted_dimRed : lumaWeighted ⟨26, 0, 0⟩ = 3887 / 500 := by
  norm_num [lumaWeighted]

/-- C5 counterexample: on the 3×3 raster that is black except for the pixel
`(26, 0, 0)` at the center, the Laplacian variance computed with the exact
grayscale formula `0.299R + 0.587G + 0.114B` (as the claim words it) is
below 100, yet `checkImageQuality` does not report `blurry`: the source
quantizes the grayscale to bytes, which lifts its variance to 8192/81 ≥ 100. -/
theorem checkImageQuality_blurry_spec_formula_fails :
    analysisWidth 3 3 = 3 ∧ analysisHeight 3 3 = 3 ∧
      laplacianVarianceUnquantized centerDotPx 3 3 < 100 ∧
      QualityIssue.blurry ∉ (checkImageQuality (.success imgCenterDot)).issues := by
  have hw : analysisWidth 3 3 = 3 := analysisWidth_eq_self 3 3 (by decide) (by decide)
  have hh : analysisHeight 3 3 = 3 := analysisHeight_eq_self 3 3 (by decide) (by decide)
  have hunq : laplacianVarianceUnquantized centerDotPx 3 3 < 100 := by
    norm_num [laplacianVarianceUnquantized, laplacianVarianceOf, laplacianEntry,
      centerDotPx, lumaWeighted, Finset.sum_range_succ]
  have hq : ¬calculateLaplacianVariance centerDotPx 3 3 < 100 := by
    norm_num [calculateLaplacianVariance, laplacianVarianceOf, laplacianEntry,
      centerDotPx, grayByte_black, grayByte_dimRed, Finset.sum_range_succ]
  have hW : analysisWidth imgCenterDot.naturalWidth imgCenterDot.naturalHeight ≠ 0 := by
    simp only [imgCenterDot]
    rw [hw]
    decide
  have hH : analysisHeight imgCenterDot.naturalWidth imgCenterDot.naturalHeight ≠ 0 := by
    simp only [imgCenterDot]
    rw [hh]
    decide
  refine ⟨hw, hh, hunq, ?_⟩
  rw [mem_checkImageQuality_ctx imgCenterDot rfl hW hH]
  simp only [imgCenterDot, hw, hh]
  push_neg
  refine ⟨fun _ => by decide, fun _ => by decide, fun hlt => absurd hlt hq⟩

/-- C6 (amended): for every decodable image with positive native dimensions,
the analysis raster measures the canvas size
`trunc(fl(nativeWidth * scale)) × trunc(fl(nativeHeight * scale))` — the
double product `fl`-rounded, then truncated toward zero by the `unsigned
long` canvas attribute, not rounded — where
`scale = min(1, fl(500 / max(nativeWidth, nativeHeight)))`; in particular
images with long edge ≤ 500 are analyzed at native size. -/
theorem analysisSize_eq_floor_scaled (w h : ℕ) (hw : 0 < w) (hh : 0 < h) :
    analysisWidth w h = (⌊roundDouble ((w : ℚ) * scale w h)⌋).toNat ∧
      analysisHeight w h = (⌊roundDouble ((h : ℚ) * scale w h)⌋).toNat ∧
      (max w h ≤ 500 → analysisWidth w h = w ∧ analysisHeight w h = h) :=
  ⟨rfl, rfl, fun hle =>
    ⟨analysisWidth_eq_self w h hw hle, analysisHeight_eq_self w h hh hle⟩⟩

/-- C6 witness: a 400×400 image is analyzed at native size 400×400. -/
theorem analysisSize_eq_floor_scaled_witness :
    analysisWidth 400 400 = 400 ∧ analysisHeight 400 400 = 400 :=
  (analysisSize_eq_floor_scaled 400 400 (by decide) (by decide)).2.2 (by decide)

/-- C6 counterexample: a native 1000×751 image has `scale = 1/2` (here every
double operation is exact), and `751 * 0.5 = 375.5` becomes analysis height
375 — the truncation the canvas `unsigned long` attribute performs — whereas
the claimed formula `round(nativeHeight * min(1, 500/max))` gives 376. -/
theorem analysisHeight_not_rounded :
    analysisHeight 1000 751 = 375 ∧
      round ((751 : ℚ) * min 1 (500 / (max 1000 751 : ℚ))) = 376 := by
  constructor
  · unfold analysisHeight
    rw [scale_1000_751]
    push_cast
    rw [show (751 : ℚ) * (1 / 2) = 751 / 2 by ring, roundDouble_751_half]
    norm_num
    decide
  · rw [max_eq_left (by norm_num : (751 : ℚ) ≤ 1000)]
    norm_num [round_eq]

/-- Thin rasters (width < 3 or height < 3) have no interior pixels, so every
Laplacian entry is 0. -/
lemma laplacianEntry_eq_zero_of_thin (gray : ℕ → ℕ → ℚ) (width height x y : ℕ)
    (hsmall : width < 3 ∨ height < 3) :
    laplacianEntry gray width height x y = 0 := by
  unfold laplacianEntry
  rw [if_neg]
  rintro ⟨hx1, hx2, hy1, hy2⟩
  rcases hsmall with hw | hh
  · omega
  · omega

/-- On a thin raster the Laplacian-variance statistic is exactly 0. -/
lemma laplacianVarianceOf_eq_zero_of_thin (gray : ℕ → ℕ → ℚ) (width height : ℕ)
    (hsmall : width < 3 ∨ height < 3) :
    laplacianVarianceOf gray width height = 0 := by
  have hz : ∀ x y, laplacianEntry gray width height x y = 0 := fun x y =>
    laplacianEntry_eq_zero_of_thin gray width height x y hsmall
  unfold laplacianVarianceOf
  simp [hz]

/-- C10: for every decodable image with a context whose analysis raster has at
least one pixel but width < 3 or height < 3, the Laplacian variance is 0,
below the blur threshold 100, so `blurry` is reported regardless of pixel
content. -/
theorem checkImageQuality_thin_raster_blurry (img : DecodedImage)
    (hc : img.ctxOk = true)
    (hpos : 0 < analysisWidth img.naturalWidth img.naturalHeight *
        analysisHeight img.naturalWidth img.naturalHeight)
    (hsmall : analysisWidth img.naturalWidth img.naturalHeight < 3 ∨
        analysisHeight img.naturalWidth img.naturalHeight < 3) :
    calculateLaplacianVariance img.px
        (analysisWidth img.naturalWidth img.naturalHeight)
        (analysisHeight img.naturalWidth img.naturalHeight) = 0 ∧
      QualityIssue.blurry ∈ (checkImageQuality (.success img)).issues := by
  have hz : calculateLaplacianVariance img.px
      (analysisWidth img.naturalWidth img.naturalHeight)
      (analysisHeight img.naturalWidth img.naturalHeight) = 0 := by
    unfold calculateLaplacianVariance
    exact laplacianVarianceOf_eq_zero_of_thin _ _ _ hsmall
  have hw0 : analysisWidth img.naturalWidth img.naturalHeight ≠ 0 := by
    intro hzero
    rw [hzero, zero_mul] at hpos
    exact lt_irrefl 0 hpos
  have hh0 : analysisHeight img.naturalWidth img.naturalHeight ≠ 0 := by
    intro hzero
    rw [hzero, mul_zero] at hpos
    exact lt_irrefl 0 hpos
  refine ⟨hz, ?_⟩
  rw [mem_checkImageQuality_ctx img hc hw0 hh0]
  exact Or.inr (Or.inr ⟨by rw [hz]; norm_num, rfl⟩)

/-- C10 witness: the all-black 2×2 image (analysis raster 2×2, nonempty, width
and height below 3) has Laplacian variance 0 and is reported `blurry`. -/
theorem checkImageQuality_thin_raster_blurry_witness :
    calculateLaplacianVariance img2.px (analysisWidth 2 2) (analysisHeight 2 2) = 0 ∧
      QualityIssue.blurry ∈ (checkImageQuality (.success img2)).issues := by
  have hw : analysisWidth 2 2 = 2 := analysisWidth_eq_self 2 2 (by decide) (by decide)
  have hh : analysisHeight 2 2 = 2 := analysisHeight_eq_self 2 2 (by decide) (by decide)
  exact checkImageQuality_thin_raster_blurry img2 rfl
    (by simp only [img2, hw, hh]; decide) (by simp only [img2, hw]; decide)
